import Mathlib

/-!
Shallow embedding of the email classification-and-folder-reconciliation
engine of `SortEmailService` (src/unnamed/part_006) and of the "today"
filter of `AnalyzeEmailService.getTodayEmails`
(src/Backend/email_service_openai/src/analyze_email/analyze_email.service.ts).

Conventions of the embedding:
* Every IMAP command the service issues is recorded in a trace
  (`Cmd`).  The IMAP server's responses are abstracted by an
  `ImapServer` oracle that says, for each command, whether its callback
  is invoked with an error (`false`) or with success (`true`), plus the
  folder listing `getBoxes` returns.
* A JavaScript promise that rejects is modelled by a `false` success
  flag in the result; a promise that resolves is `true`.
* JS timestamps are modelled as natural numbers: milliseconds on a
  fixed-offset reference-timezone clock, so `setHours(0,0,0,0)`
  becomes truncation to a multiple of `msPerDay`.
* IMAP UIDs delivered by the server are positive integers, so the JS
  truthiness test `email.uid` coincides with presence; a missing `uid`
  is `Option.none`.
-/

set_option maxHeartbeats 1000000

namespace EmailWorkflow

/-! ### Executable string primitives

The JS string primitives the service relies on, written over the
character list so they evaluate inside the kernel.  `lowerStr` models
`toLowerCase` (ASCII case folding, which is all the compared category
and folder names need), `strStartsWith` models `startsWith`, and
`trimStr` models `trim`. -/

/-- Model of `String.prototype.toLowerCase`. -/
def lowerStr (s : String) : String := ⟨s.data.map Char.toLower⟩

/-- Model of `String.prototype.startsWith`. -/
def strStartsWith (s p : String) : Bool := s.data.take p.data.length == p.data

/-- Model of `String.prototype.trim`. -/
def trimStr (s : String) : String :=
  ⟨((s.data.dropWhile Char.isWhitespace).reverse.dropWhile
      Char.isWhitespace).reverse⟩

/-- One mail item, as built by the fetch phase (`Email` model plus the
`uid` attached via `(email as any).uid = attrs.uid`).  `date` is `none`
when the message carries no date. -/
structure Email where
  id : String
  subject : String
  body : String
  date : Option Nat
  uid : Option Nat
deriving Repr, DecidableEq

/-- The IMAP commands `SortEmailService` can issue on its connection. -/
inductive Cmd where
  | getBoxes : Cmd
  | addBox : String → Cmd
  | openBox : String → Bool → Cmd
  | setFlags : List Nat → List String → Cmd
  | copy : List Nat → String → Cmd
  | addFlags : List Nat → List String → Cmd
  | expunge : Cmd
deriving Repr, DecidableEq

/-- Oracle for the IMAP server: the folder listing and, per command,
whether the command's callback reports success (`true`) or an error
(`false`). -/
structure ImapServer where
  boxes : List String
  getBoxesOk : Bool
  addBoxOk : String → Bool
  openBoxOk : String → Bool
  setFlagsOk : List Nat → Bool
  copyOk : List Nat → String → Bool
  addFlagsOk : List Nat → Bool
  expungeOk : Bool

/-- `normalizeMailboxName`: hard-coded substitution table for the two
special folder names, identity everywhere else. -/
def normalizeMailboxName (folderName : String) : String :=
  if folderName = "Reçus" then "Re&AOc-us"
  else if folderName = "Envoyés" then "Envoy&AOk-s"
  else folderName

/-- The per-box test inside `ensureCategoryExists`:
`boxName.toLowerCase() === categoryName.toLowerCase() || boxName === normalizedName`. -/
def matchesBox (categoryName normalizedName boxName : String) : Bool :=
  lowerStr boxName == lowerStr categoryName || boxName == normalizedName

/-- `ensureCategoryExists`: lists the boxes; if listing fails the promise
rejects.  Otherwise, if some box matches (case-insensitively, or exactly
equals the normalized variant) it resolves without creating anything;
otherwise it issues `addBox` with the normalized name and resolves or
rejects according to that creation's outcome.  Result: (trace of issued
commands, `true` iff the promise resolves). -/
def ensureCategoryExists (srv : ImapServer) (categoryName : String) :
    List Cmd × Bool :=
  if srv.getBoxesOk = false then ([Cmd.getBoxes], false)
  else if srv.boxes.any
      (matchesBox categoryName (normalizeMailboxName categoryName)) then
    ([Cmd.getBoxes], true)
  else
    ([Cmd.getBoxes, Cmd.addBox (normalizeMailboxName categoryName)],
      srv.addBoxOk (normalizeMailboxName categoryName))

/-- The UID list extracted in `processSortedEmails`:
`.filter(email => email.uid).map(email => email.uid)`.  (IMAP UIDs are
positive, so JS truthiness of `uid` is exactly presence.) -/
def validUids (emails : List Email) : List Nat :=
  emails.filterMap (fun e => e.uid)

/-- Flags of step 1 (mark read). -/
def seenFlags : List String := ["\\Seen"]

/-- Flags of step 3 (mark deleted). -/
def deletedFlags : List String := ["\\Deleted"]

/-- The body of the per-category loop of `processSortedEmails`: skip an
empty category; ensure the destination folder; open INBOX read-write;
filter out messages without a UID (`continue` when none remain); then
the sequential awaited steps setFlags \Seen → copy → addFlags \Deleted
→ expunge.  Result: (trace, `true` iff no step threw, number of
messages counted into `totalProcessed`). -/
def processCategory (srv : ImapServer) (category : String)
    (emails : List Email) : List Cmd × Bool × Nat :=
  if emails.length = 0 then ([], true, 0)
  else
    let ens := ensureCategoryExists srv category
    if ens.2 = false then (ens.1, false, 0)
    else
      let t1 := ens.1 ++ [Cmd.openBox "INBOX" false]
      if srv.openBoxOk "INBOX" = false then (t1, false, 0)
      else
        let uids := validUids emails
        if uids.length = 0 then (t1, true, 0)
        else
          let t2 := t1 ++ [Cmd.setFlags uids seenFlags]
          if srv.setFlagsOk uids = false then (t2, false, 0)
          else
            let dest := normalizeMailboxName category
            let t3 := t2 ++ [Cmd.copy uids dest]
            if srv.copyOk uids dest = false then (t3, false, 0)
            else
              let t4 := t3 ++ [Cmd.addFlags uids deletedFlags]
              if srv.addFlagsOk uids = false then (t4, false, 0)
              else
                let t5 := t4 ++ [Cmd.expunge]
                if srv.expungeOk = false then (t5, false, 0)
                else (t5, true, uids.length)

/-- `processSortedEmails`: iterates the categories in order.  The whole
loop is wrapped in a single try/catch, so the first category whose
reconciliation throws ends the loop (the error is logged and swallowed;
the promise still resolves).  Result: (full trace, `true` iff no
category threw, final `totalProcessed`). -/
def processSortedEmails (srv : ImapServer) :
    List (String × List Email) → List Cmd × Bool × Nat
  | [] => ([], true, 0)
  | (category, emails) :: rest =>
    let r := processCategory srv category emails
    if r.2.1 = true then
      let r2 := processSortedEmails srv rest
      (r.1 ++ r2.1, r2.2.1, r.2.2 + r2.2.2)
    else (r.1, false, r.2.2)

/-- The label the classifier's reply reduces to:
`response.choices[0]?.message?.content?.trim() || 'Autre'` — a missing
content or a whitespace-only content degrades to `'Autre'`. -/
def predictedLabel (content : Option String) : String :=
  match content with
  | none => "Autre"
  | some s => if trimStr s = "" then "Autre" else trimStr s

/-- `categorizeEmail`: the whole body is inside one try/catch.  A throw
anywhere (provider error, timeout, malformed reply) yields `'Autre'`.
On a reply, the trimmed label is matched case-insensitively against the
known category list (`this.categories.find(...) || 'Autre'`); no match
yields `'Autre'`.  The classifier call's outcome is the `resp` oracle:
`Except.error` for a throw, `Except.ok content` for a reply. -/
def categorizeEmail (categories : List String)
    (resp : Except Unit (Option String)) : String :=
  match resp with
  | Except.error _ => "Autre"
  | Except.ok content =>
    match categories.find?
        (fun category =>
          lowerStr category == lowerStr (predictedLabel content)) with
    | some c => if c = "" then "Autre" else c
    | none => "Autre"

/-- The folder-name filter of `initializeCategories`: drop `INBOX` and
bracket-prefixed system folders. -/
def filteredFolders (folderNames : List String) : List String :=
  folderNames.filter
    (fun name => name != "INBOX" && !(strStartsWith name "["))

/-- The category construction of `initializeCategories` on a successful
listing: the filtered folder names, with `'Autre'` appended when
absent. -/
def buildCategories (folderNames : List String) : List String :=
  if (filteredFolders folderNames).contains "Autre" then
    filteredFolders folderNames
  else
    filteredFolders folderNames ++ ["Autre"]

/-- `initializeCategories`: on a `getBoxes` error the promise still
resolves and the category set degrades to `['Autre']`; on success the
categories are built from the listed folder names. -/
def initializeCategories (srv : ImapServer) : List String :=
  if srv.getBoxesOk = false then ["Autre"]
  else buildCategories srv.boxes

/-- The truncation of search results in `getUnsortedEmails` and
`getAllEmails`: `limit ? results.slice(0, limit) : results`.  `limit`
is absent (`none`) or a number; a limit of `0` is falsy in JS, so the
ternary keeps the full result list in that case. -/
def finalResults (results : List Nat) (limit : Option Nat) : List Nat :=
  match limit with
  | none => results
  | some l => if l = 0 then results else results.take l

/-- Milliseconds per day. -/
def msPerDay : Nat := 86400000

/-- `setHours(0,0,0,0)` on the reference-timezone clock: truncation of
a millisecond timestamp to its day's midnight. -/
def startOfDay (t : Nat) : Nat := t / msPerDay * msPerDay

/-- The predicate of `getTodayEmails`' filter: a message with no date
is dropped; otherwise both the message date and now are truncated to
midnight and compared for exact equality. -/
def keepToday (emailDate : Option Nat) (now : Nat) : Bool :=
  match emailDate with
  | none => false
  | some d => startOfDay d == startOfDay now

/-- `const todayEmails = folderEmails.filter(...)` of `getTodayEmails`. -/
def todayEmails (folderEmails : List Email) (now : Nat) : List Email :=
  folderEmails.filter (fun e => keepToday e.date now)

/-! ### Helper lemmas shared by several developments -/

/-- The trace of `ensureCategoryExists` is either just the listing, or
the listing followed by one folder creation under the normalized name. -/
lemma ensure_trace_shape (srv : ImapServer) (c : String) :
    (ensureCategoryExists srv c).1 = [Cmd.getBoxes] ∨
    (ensureCategoryExists srv c).1 =
      [Cmd.getBoxes, Cmd.addBox (normalizeMailboxName c)] := by
  unfold ensureCategoryExists
  split_ifs <;> simp

/-- Every command `ensureCategoryExists` issues is the listing or the
creation of the normalized folder. -/
lemma cmds_of_ensure (srv : ImapServer) (c : String) :
    ∀ x ∈ (ensureCategoryExists srv c).1,
      x = Cmd.getBoxes ∨ x = Cmd.addBox (normalizeMailboxName c) := by
  intro x hx
  rcases ensure_trace_shape srv c with h | h <;> rw [h] at hx <;>
    simp at hx <;> tauto

/-- A membership description of `filteredFolders`. -/
lemma mem_filteredFolders (names : List String) (s : String) :
    s ∈ filteredFolders names ↔
      s ∈ names ∧ s ≠ "INBOX" ∧ strStartsWith s "[" = false := by
  unfold filteredFolders
  rw [List.mem_filter]
  simp [Bool.and_eq_true, bne_iff_ne, Bool.not_eq_true', and_assoc]

/-- A membership description of `buildCategories`. -/
lemma mem_buildCategories (names : List String) (s : String) :
    s ∈ buildCategories names ↔
      (s ∈ names ∧ s ≠ "INBOX" ∧ strStartsWith s "[" = false) ∨
        s = "Autre" := by
  unfold buildCategories
  split_ifs with h
  · rw [mem_filteredFolders]
    constructor
    · exact Or.inl
    · rintro (h1 | rfl)
      · exact h1
      · rw [← mem_filteredFolders]
        simpa using h
  · simp only [List.mem_append, List.mem_singleton, mem_filteredFolders]

/-- The fallback category is always present after `buildCategories`. -/
lemma autre_mem_buildCategories (names : List String) :
    "Autre" ∈ buildCategories names :=
  (mem_buildCategories names "Autre").2 (Or.inr rfl)

/-! ### C10 — the folder-name normalization table -/

/-- C10: `normalizeMailboxName` maps exactly the two hard-coded entries
(`Reçus`, `Envoyés`) to their encoded forms and is the identity on every
other string, so it gives no guarantee for arbitrary non-ASCII names. -/
theorem normalizeMailboxName_table (s : String) :
    normalizeMailboxName "Reçus" = "Re&AOc-us" ∧
    normalizeMailboxName "Envoyés" = "Envoy&AOk-s" ∧
    (s ≠ "Reçus" → s ≠ "Envoyés" → normalizeMailboxName s = s) := by
  refine ⟨by simp [normalizeMailboxName], by simp [normalizeMailboxName], ?_⟩
  intro h1 h2
  simp [normalizeMailboxName, h1, h2]

/-- Witness for C10: an accented folder name outside the table passes
through unchanged. -/
theorem normalizeMailboxName_table_witness :
    normalizeMailboxName "Café" = "Café" :=
  (normalizeMailboxName_table "Café").2.2 (by decide) (by decide)

/-! ### C6 — degradation of the category set on listing failure -/

/-- C6: when the folder listing fails, `initializeCategories` still
resolves (it is a total function of the oracle) and the category set is
exactly `["Autre"]`; moreover, the fallback category is present whatever
the server answers, so there is always a valid destination. -/
theorem initializeCategories_degrades (srv : ImapServer) :
    (srv.getBoxesOk = false → initializeCategories srv = ["Autre"]) ∧
    "Autre" ∈ initializeCategories srv := by
  constructor
  · intro h
    simp [initializeCategories, h]
  · unfold initializeCategories
    split_ifs
    · simp
    · exact autre_mem_buildCategories _

/-- Witness for C6: a server whose listing fails yields the
fallback-only taxonomy. -/
theorem initializeCategories_degrades_witness :
    initializeCategories
        ⟨["INBOX", "Factures"], false, fun _ => true, fun _ => true,
          fun _ => true, fun _ _ => true, fun _ => true, true⟩ =
      ["Autre"] :=
  (initializeCategories_degrades _).1 rfl

/-! ### C5 — the category set built from a successful listing -/

/-- C5: on a successful listing, the category set contains exactly the
listed folder names that are not `INBOX` and do not start with `[`,
plus the fallback `Autre`; in particular it never contains `INBOX` or a
bracket-prefixed name. -/
theorem initializeCategories_members (srv : ImapServer)
    (h : srv.getBoxesOk = true) :
    (∀ s, s ∈ initializeCategories srv ↔
      ((s ∈ srv.boxes ∧ s ≠ "INBOX" ∧ strStartsWith s "[" = false) ∨
        s = "Autre")) ∧
    "INBOX" ∉ initializeCategories srv ∧
    (∀ s, strStartsWith s "[" = true → s ∉ initializeCategories srv) := by
  have hmem : ∀ s, s ∈ initializeCategories srv ↔
      ((s ∈ srv.boxes ∧ s ≠ "INBOX" ∧ strStartsWith s "[" = false) ∨
        s = "Autre") := by
    intro s
    unfold initializeCategories
    rw [if_neg (by simp [h])]
    exact mem_buildCategories srv.boxes s
  refine ⟨hmem, ?_, ?_⟩
  · intro hin
    rcases (hmem "INBOX").1 hin with ⟨_, hne, _⟩ | heq
    · exact hne rfl
    · exact absurd heq (by decide)
  · intro s hs hin
    rcases (hmem s).1 hin with ⟨_, _, hfalse⟩ | heq
    · rw [hs] at hfalse
      simp at hfalse
    · rw [heq] at hs
      exact absurd hs (by decide)

/-- Witness for C5: a Gmail-style listing keeps `Factures`, drops
`INBOX` and `[Gmail]/All Mail`, and appends `Autre`. -/
theorem initializeCategories_members_witness :
    "INBOX" ∉ initializeCategories
      ⟨["INBOX", "[Gmail]/All Mail", "Factures"], true, fun _ => true,
        fun _ => true, fun _ => true, fun _ _ => true, fun _ => true,
        true⟩ :=
  (initializeCategories_members _ rfl).2.1

/-! ### C7 — truncation of search results by the fetch limit -/

/-- Counterexample for C7: a limit of `0` is falsy in JS, so the
ternary keeps the whole result list instead of truncating it to
`min(n, 0) = 0` identifiers. -/
theorem finalResults_zero_limit_cex :
    finalResults [1] (some 0) = [1] ∧
    (finalResults [1] (some 0)).length ≠ Nat.min 1 0 := by decide

/-- C7 (amended): for a positive limit `L` the search identifiers are
truncated to the first `min(n, L)` before bodies are fetched (so at
most `L` bodies are fetched); with no limit all `n` are kept; a limit
of `0` is treated like no limit. -/
theorem finalResults_truncates (results : List Nat) (l : Nat)
    (h : 1 ≤ l) :
    finalResults results (some l) = results.take l ∧
    (finalResults results (some l)).length = Nat.min results.length l ∧
    (finalResults results (some l)).length ≤ l ∧
    finalResults results none = results ∧
    finalResults results (some 0) = results := by
  have hl : l ≠ 0 := by omega
  refine ⟨by simp [finalResults, hl], ?_, ?_, rfl, by simp [finalResults]⟩
  · simp [finalResults, hl, List.length_take, Nat.min_comm]
  · simp [finalResults, hl, List.length_take]

/-- Witness for C7 (amended): limit `2` on three identifiers keeps the
first two. -/
theorem finalResults_truncates_witness :
    finalResults [5, 6, 7] (some 2) = [5, 6] :=
  ((finalResults_truncates [5, 6, 7] 2 (by decide)).1).trans (by decide)

/-! ### C8 — the exact-day "today" filter -/

/-- C8: `getTodayEmails` keeps a message iff its date and now, both
truncated to midnight, are equal; a message with no date is dropped.
In particular a 23:59-yesterday timestamp is excluded and a
00:01-today timestamp is included. -/
theorem todayFilter_keeps_iff (now d : Nat) (emails : List Email)
    (e : Email) :
    (e ∈ todayEmails emails now ↔
      e ∈ emails ∧ keepToday e.date now = true) ∧
    (keepToday (some d) now = true ↔ startOfDay d = startOfDay now) ∧
    keepToday none now = false ∧
    (msPerDay ≤ now →
      keepToday (some (startOfDay now - 60000)) now = false ∧
      keepToday (some (startOfDay now + 60000)) now = true) := by
  refine ⟨List.mem_filter, by simp [keepToday], rfl, ?_⟩
  intro hnow
  constructor
  · have hne : startOfDay (startOfDay now - 60000) ≠ startOfDay now := by
      unfold startOfDay msPerDay
      unfold msPerDay at hnow
      omega
    simp [keepToday, hne]
  · have heq : startOfDay (startOfDay now + 60000) = startOfDay now := by
      unfold startOfDay msPerDay
      omega
    simp [keepToday, heq]

/-- Witness for C8: at now = two days plus 10:00, the 23:59-yesterday
message is excluded and the 00:01-today message is included. -/
theorem todayFilter_keeps_iff_witness :
    msPerDay ≤ 208800000 ∧
    keepToday (some (startOfDay 208800000 - 60000)) 208800000 = false ∧
    keepToday (some (startOfDay 208800000 + 60000)) 208800000 = true :=
  ⟨by decide,
    (todayFilter_keeps_iff 208800000 0 []
      ⟨"1", "s", "b", none, none⟩).2.2.2 (by decide)⟩

/-! ### C3 — total fallback of the classifier gateway -/

/-- C3: `categorizeEmail` never throws (it is total in the classifier
outcome) and never returns a string outside the known categories plus
`'Autre'`; a classifier throw yields `'Autre'`, and a label that
matches no known category case-insensitively after trimming yields
`'Autre'`. -/
theorem categorizeEmail_never_unknown (categories : List String)
    (resp : Except Unit (Option String)) :
    (categorizeEmail categories resp = "Autre" ∨
      categorizeEmail categories resp ∈ categories) ∧
    (∀ e, resp = Except.error e →
      categorizeEmail categories resp = "Autre") ∧
    (∀ content, resp = Except.ok content →
      (∀ c ∈ categories,
        lowerStr c ≠ lowerStr (predictedLabel content)) →
      categorizeEmail categories resp = "Autre") := by
  have hok : ∀ content, categorizeEmail categories (Except.ok content) =
      match categories.find?
          (fun category =>
            lowerStr category == lowerStr (predictedLabel content)) with
      | some c => if c = "" then "Autre" else c
      | none => "Autre" := fun _ => rfl
  refine ⟨?_, ?_, ?_⟩
  · cases resp with
    | error e => exact Or.inl rfl
    | ok content =>
      rw [hok]
      cases hfind : categories.find?
          (fun category =>
            lowerStr category == lowerStr (predictedLabel content)) with
      | none => exact Or.inl rfl
      | some c =>
        have hc : c ∈ categories := List.mem_of_find?_eq_some hfind
        by_cases hempty : c = ""
        · simp [hempty]
        · simp only [hempty, if_false]
          exact Or.inr hc
  · rintro e rfl
    rfl
  · rintro content rfl hno
    rw [hok]
    have hfind : categories.find?
        (fun category =>
          lowerStr category == lowerStr (predictedLabel content)) = none := by
      rw [List.find?_eq_none]
      intro c hc
      simpa using hno c hc
    rw [hfind]

/-- Witness for C3: a trimmed label matching no category degrades to
the fallback. -/
theorem categorizeEmail_never_unknown_witness :
    categorizeEmail ["Travail", "Perso"]
        (Except.ok (some "  Spam  ")) = "Autre" :=
  (categorizeEmail_never_unknown ["Travail", "Perso"]
      (Except.ok (some "  Spam  "))).2.2
    (some "  Spam  ") rfl (by decide)

/-! ### C9 — ensure-folder contract -/

/-- C9: when the listing succeeds and some listed folder matches the
category (case-insensitively, or exactly equals its normalized
variant), `ensureCategoryExists` resolves without creating anything;
when none matches, it creates the folder under the normalized name and
the outcome is exactly the creation's outcome (a failed creation
rejects); a failed listing rejects. -/
theorem ensureCategoryExists_contract (srv : ImapServer) (name : String) :
    (srv.getBoxesOk = true →
      srv.boxes.any (matchesBox name (normalizeMailboxName name)) = true →
      (ensureCategoryExists srv name).2 = true ∧
      ∀ n, Cmd.addBox n ∉ (ensureCategoryExists srv name).1) ∧
    (srv.getBoxesOk = true →
      srv.boxes.any (matchesBox name (normalizeMailboxName name)) = false →
      Cmd.addBox (normalizeMailboxName name) ∈
          (ensureCategoryExists srv name).1 ∧
      (ensureCategoryExists srv name).2 =
        srv.addBoxOk (normalizeMailboxName name)) ∧
    (srv.getBoxesOk = false → (ensureCategoryExists srv name).2 = false) := by
  unfold ensureCategoryExists
  refine ⟨?_, ?_, ?_⟩
  · intro h hmatch
    rw [if_neg (by simp [h]), if_pos hmatch]
    simp
  · intro h hmatch
    rw [if_neg (by simp [h]), if_neg (by simp [hmatch])]
    simp
  · intro h
    rw [if_pos h]

/-- Witness for C9: a case-insensitive match resolves without creating;
no match creates the normalized folder; a failed listing rejects. -/
theorem ensureCategoryExists_contract_witness :
    (ensureCategoryExists
        ⟨["INBOX", "factures"], true, fun _ => true, fun _ => true,
          fun _ => true, fun _ _ => true, fun _ => true, true⟩
        "Factures").2 = true ∧
    Cmd.addBox "Re&AOc-us" ∈
      (ensureCategoryExists
          ⟨["INBOX"], true, fun _ => true, fun _ => true, fun _ => true,
            fun _ _ => true, fun _ => true, true⟩
          "Reçus").1 ∧
    (ensureCategoryExists
        ⟨["INBOX"], false, fun _ => true, fun _ => true, fun _ => true,
          fun _ _ => true, fun _ => true, true⟩
        "Factures").2 = false :=
  ⟨((ensureCategoryExists_contract
      ⟨["INBOX", "factures"], true, fun _ => true, fun _ => true,
        fun _ => true, fun _ _ => true, fun _ => true, true⟩
      "Factures").1 rfl (by decide)).1,
    ((ensureCategoryExists_contract
        ⟨["INBOX"], true, fun _ => true, fun _ => true, fun _ => true,
          fun _ _ => true, fun _ => true, true⟩
        "Reçus").2.1 rfl (by decide)).1,
    (ensureCategoryExists_contract
        ⟨["INBOX"], false, fun _ => true, fun _ => true, fun _ => true,
          fun _ _ => true, fun _ => true, true⟩
        "Factures").2.2 rfl⟩

/-! ### C1 — expunge only after an acknowledged copy -/

/-- `ensureCategoryExists` never issues an expunge. -/
lemma expunge_not_mem_ensure (srv : ImapServer) (c : String) :
    Cmd.expunge ∉ (ensureCategoryExists srv c).1 := by
  intro hx
  rcases cmds_of_ensure srv c _ hx with h | h <;> exact Cmd.noConfusion h

/-- C1: within one category batch, the four mutation steps are issued
in the strict order seen-flag, copy, deleted-flag, expunge; if the copy
is not acknowledged, expunge is never issued for that batch, and an
issued expunge implies the batch's copy completed without error. -/
theorem processCategory_expunge_after_copy (srv : ImapServer)
    (category : String) (emails : List Email) :
    (srv.copyOk (validUids emails) (normalizeMailboxName category) = false →
      Cmd.expunge ∉ (processCategory srv category emails).1) ∧
    (Cmd.expunge ∈ (processCategory srv category emails).1 →
      srv.copyOk (validUids emails) (normalizeMailboxName category) = true ∧
      srv.setFlagsOk (validUids emails) = true ∧
      (processCategory srv category emails).1 =
        (ensureCategoryExists srv category).1 ++
          [Cmd.openBox "INBOX" false,
            Cmd.setFlags (validUids emails) seenFlags,
            Cmd.copy (validUids emails) (normalizeMailboxName category),
            Cmd.addFlags (validUids emails) deletedFlags,
            Cmd.expunge]) := by
  have hens := expunge_not_mem_ensure srv category
  simp only [processCategory]
  split_ifs with h1 h2 h3 h4 h5 h6 h7 h8 <;>
    constructor <;>
    intro h <;>
    simp_all [List.mem_append, Bool.not_eq_false]

/-- Witness for C1: with a copy-refusing server, expunge is absent from
the batch trace; with an all-accepting server, the batch trace is the
strict five-step sequence after the folder listing. -/
theorem processCategory_expunge_after_copy_witness :
    Cmd.expunge ∉
      (processCategory
          ⟨["INBOX", "Factures"], true, fun _ => true, fun _ => true,
            fun _ => true, fun _ _ => false, fun _ => true, true⟩
          "Factures" [⟨"1", "s", "b", none, some 7⟩]).1 ∧
    (processCategory
          ⟨["INBOX", "Factures"], true, fun _ => true, fun _ => true,
            fun _ => true, fun _ _ => true, fun _ => true, true⟩
          "Factures" [⟨"1", "s", "b", none, some 7⟩]).1 =
      (ensureCategoryExists
          ⟨["INBOX", "Factures"], true, fun _ => true, fun _ => true,
            fun _ => true, fun _ _ => true, fun _ => true, true⟩
          "Factures").1 ++
        [Cmd.openBox "INBOX" false,
          Cmd.setFlags (validUids [⟨"1", "s", "b", none, some 7⟩])
            seenFlags,
          Cmd.copy (validUids [⟨"1", "s", "b", none, some 7⟩])
            (normalizeMailboxName "Factures"),
          Cmd.addFlags (validUids [⟨"1", "s", "b", none, some 7⟩])
            deletedFlags,
          Cmd.expunge] :=
  ⟨(processCategory_expunge_after_copy
      ⟨["INBOX", "Factures"], true, fun _ => true, fun _ => true,
        fun _ => true, fun _ _ => false, fun _ => true, true⟩
      "Factures" [⟨"1", "s", "b", none, some 7⟩]).1 rfl,
    ((processCategory_expunge_after_copy
        ⟨["INBOX", "Factures"], true, fun _ => true, fun _ => true,
          fun _ => true, fun _ _ => true, fun _ => true, true⟩
        "Factures" [⟨"1", "s", "b", none, some 7⟩]).2 (by decide)).2.2⟩

/-! ### Concrete servers and messages used by witnesses -/

/-- A server that lists `boxes` and acknowledges every command. -/
def allOkServer (boxes : List String) : ImapServer :=
  ⟨boxes, true, fun _ => true, fun _ => true, fun _ => true,
    fun _ _ => true, fun _ => true, true⟩

/-- A server that acknowledges everything except copies into the folder
`bad`. -/
def copyFailToServer (boxes : List String) (bad : String) : ImapServer :=
  ⟨boxes, true, fun _ => true, fun _ => true, fun _ => true,
    fun _ dest => !(dest == bad), fun _ => true, true⟩

/-- A fetched message carrying a UID. -/
def emailWithUid (i : String) (u : Nat) : Email := ⟨i, "s", "b", none, some u⟩

/-! ### C2 — what a mid-run reconciliation failure aborts -/

/-- A category whose reconciliation throws contributes nothing to
`totalProcessed`. -/
lemma processCategory_fail_count (srv : ImapServer) (c : String)
    (es : List Email) (h : (processCategory srv c es).2.1 = false) :
    (processCategory srv c es).2.2 = 0 := by
  simp only [processCategory] at *
  split_ifs at * <;> simp_all

/-- Concatenation of the per-category traces of a list of batches. -/
def categoriesTrace (srv : ImapServer)
    (l : List (String × List Email)) : List Cmd :=
  l.foldr (fun p acc => (processCategory srv p.1 p.2).1 ++ acc) []

/-- Sum of the per-category processed counts of a list of batches. -/
def categoriesCount (srv : ImapServer)
    (l : List (String × List Email)) : Nat :=
  l.foldr (fun p acc => (processCategory srv p.1 p.2).2.2 + acc) 0

/-- Counterexample for C2: with categories A, B, C where B's copy is
refused by the server, A completes (count 1) but C is never touched —
no copy, and not even a seen-flag, is issued for C's UIDs, because the
single try/catch around the whole loop ends it at B. -/
theorem processSortedEmails_abort_cex :
    (processSortedEmails (copyFailToServer ["INBOX", "A", "B", "C"] "B")
        [("A", [emailWithUid "1" 1]), ("B", [emailWithUid "2" 2]),
          ("C", [emailWithUid "3" 3])]).2.2 = 1 ∧
    Cmd.copy [1] "A" ∈
      (processSortedEmails (copyFailToServer ["INBOX", "A", "B", "C"] "B")
          [("A", [emailWithUid "1" 1]), ("B", [emailWithUid "2" 2]),
            ("C", [emailWithUid "3" 3])]).1 ∧
    Cmd.copy [3] "C" ∉
      (processSortedEmails (copyFailToServer ["INBOX", "A", "B", "C"] "B")
          [("A", [emailWithUid "1" 1]), ("B", [emailWithUid "2" 2]),
            ("C", [emailWithUid "3" 3])]).1 ∧
    Cmd.setFlags [3] seenFlags ∉
      (processSortedEmails (copyFailToServer ["INBOX", "A", "B", "C"] "B")
          [("A", [emailWithUid "1" 1]), ("B", [emailWithUid "2" 2]),
            ("C", [emailWithUid "3" 3])]).1 := by decide

/-- C2 (amended): categories processed before the failing one complete
and are counted, but the failing category ends the whole run — its
partial trace is the last thing issued, later categories are never
touched, and the error is swallowed (the overall flag is `false`, the
promise still resolves). -/
theorem processSortedEmails_prefix_isolation (srv : ImapServer)
    (pre : List (String × List Email)) (c : String) (es : List Email)
    (post : List (String × List Email))
    (hpre : ∀ p ∈ pre, (processCategory srv p.1 p.2).2.1 = true)
    (hc : (processCategory srv c es).2.1 = false) :
    processSortedEmails srv (pre ++ (c, es) :: post) =
      (categoriesTrace srv pre ++ (processCategory srv c es).1, false,
        categoriesCount srv pre) := by
  induction pre with
  | nil =>
    have h0 := processCategory_fail_count srv c es hc
    simp [processSortedEmails, categoriesTrace, categoriesCount, hc, h0]
  | cons p pre ih =>
    obtain ⟨a, b⟩ := p
    have hp : (processCategory srv a b).2.1 = true :=
      hpre (a, b) (List.mem_cons_self _ _)
    have ihc := ih (fun q hq => hpre q (List.mem_cons_of_mem _ hq))
    simp only [List.cons_append, processSortedEmails, hp, if_true,
      List.append_eq]
    rw [ihc]
    simp [categoriesTrace, categoriesCount, List.append_assoc]

/-- Witness for C2 (amended): A succeeds, B's copy fails, C follows B. -/
theorem processSortedEmails_prefix_isolation_witness :
    processSortedEmails (copyFailToServer ["INBOX", "A", "B", "C"] "B")
        ([("A", [emailWithUid "1" 1])] ++
          ("B", [emailWithUid "2" 2]) :: [("C", [emailWithUid "3" 3])]) =
      (categoriesTrace (copyFailToServer ["INBOX", "A", "B", "C"] "B")
          [("A", [emailWithUid "1" 1])] ++
        (processCategory (copyFailToServer ["INBOX", "A", "B", "C"] "B")
            "B" [emailWithUid "2" 2]).1,
        false,
        categoriesCount (copyFailToServer ["INBOX", "A", "B", "C"] "B")
          [("A", [emailWithUid "1" 1])]) :=
  processSortedEmails_prefix_isolation
    (copyFailToServer ["INBOX", "A", "B", "C"] "B")
    [("A", [emailWithUid "1" 1])] "B" [emailWithUid "2" 2]
    [("C", [emailWithUid "3" 3])] (by decide) (by decide)

/-! ### C4 — the UID filter and what it does not prevent -/

/-- `ensureCategoryExists` never issues a seen-flag command. -/
lemma setFlags_not_mem_ensure (srv : ImapServer) (c : String)
    (uids : List Nat) (flags : List String) :
    Cmd.setFlags uids flags ∉ (ensureCategoryExists srv c).1 := by
  intro hx
  rcases cmds_of_ensure srv c _ hx with h | h <;> exact Cmd.noConfusion h

/-- `ensureCategoryExists` never issues a copy command. -/
lemma copy_not_mem_ensure (srv : ImapServer) (c : String)
    (uids : List Nat) (dest : String) :
    Cmd.copy uids dest ∉ (ensureCategoryExists srv c).1 := by
  intro hx
  rcases cmds_of_ensure srv c _ hx with h | h <;> exact Cmd.noConfusion h

/-- `ensureCategoryExists` never issues a deleted-flag command. -/
lemma addFlags_not_mem_ensure (srv : ImapServer) (c : String)
    (uids : List Nat) (flags : List String) :
    Cmd.addFlags uids flags ∉ (ensureCategoryExists srv c).1 := by
  intro hx
  rcases cmds_of_ensure srv c _ hx with h | h <;> exact Cmd.noConfusion h

/-- When no message of the batch has a UID, the batch's trace stops at
the `ensureCategoryExists` commands, possibly followed by the INBOX
open. -/
lemma processCategory_trace_no_uids (srv : ImapServer) (category : String)
    (emails : List Email) (hnil : validUids emails = []) :
    (processCategory srv category emails).1 = [] ∨
    (processCategory srv category emails).1 =
      (ensureCategoryExists srv category).1 ∨
    (processCategory srv category emails).1 =
      (ensureCategoryExists srv category).1 ++
        [Cmd.openBox "INBOX" false] := by
  simp only [processCategory]
  split_ifs <;> simp_all

/-- The kept UIDs are exactly the messages that have one. -/
lemma validUids_length_sub (emails : List Email) :
    (validUids emails).length =
      emails.length - (emails.filter (fun e => e.uid.isNone)).length := by
  have key : (validUids emails).length +
      (emails.filter (fun e => e.uid.isNone)).length = emails.length := by
    induction emails with
    | nil => rfl
    | cons e es ih =>
      cases h : e.uid <;>
        simp_all [validUids, List.filterMap_cons, List.filter_cons, h] <;>
        omega
  omega

/-- Counterexample for C4: a category whose single message lacks a UID
is *not* skipped entirely — `ensureCategoryExists` runs first and
issues a folder-creating `addBox` (and the INBOX open follows), so a
mutation command is issued for the category. -/
theorem uidless_category_not_skipped_cex :
    Cmd.addBox "X" ∈
      (processCategory (allOkServer ["INBOX"]) "X"
          [⟨"1", "s", "b", none, none⟩]).1 ∧
    (processCategory (allOkServer ["INBOX"]) "X"
        [⟨"1", "s", "b", none, none⟩]).1 ≠ [] := by decide

/-- C4 (amended): every seen-flag, copy and deleted-flag command of a
category batch carries exactly the UIDs of the messages that have one
(`N − K` of the `N` messages when `K` lack a UID); if every message
lacks a UID, none of the four message-level steps (flag, copy,
delete-flag, expunge) is issued — but the ensure-folder and INBOX-open
steps still run first, so the category is not skipped entirely. -/
theorem uid_filter_before_message_steps (srv : ImapServer)
    (category : String) (emails : List Email) :
    (∀ uids flags, Cmd.setFlags uids flags ∈
        (processCategory srv category emails).1 →
      uids = validUids emails) ∧
    (∀ uids dest, Cmd.copy uids dest ∈
        (processCategory srv category emails).1 →
      uids = validUids emails) ∧
    (∀ uids flags, Cmd.addFlags uids flags ∈
        (processCategory srv category emails).1 →
      uids = validUids emails) ∧
    (validUids emails = [] →
      (∀ uids flags, Cmd.setFlags uids flags ∉
        (processCategory srv category emails).1) ∧
      (∀ uids dest, Cmd.copy uids dest ∉
        (processCategory srv category emails).1) ∧
      (∀ uids flags, Cmd.addFlags uids flags ∉
        (processCategory srv category emails).1) ∧
      Cmd.expunge ∉ (processCategory srv category emails).1) ∧
    (validUids emails).length =
      emails.length - (emails.filter (fun e => e.uid.isNone)).length := by
  refine ⟨?_, ?_, ?_, ?_, validUids_length_sub emails⟩
  · intro uids flags hmem
    simp only [processCategory] at hmem
    split_ifs at hmem <;>
      simp_all [List.mem_append, setFlags_not_mem_ensure]
  · intro uids dest hmem
    simp only [processCategory] at hmem
    split_ifs at hmem <;>
      simp_all [List.mem_append, copy_not_mem_ensure]
  · intro uids flags hmem
    simp only [processCategory] at hmem
    split_ifs at hmem <;>
      simp_all [List.mem_append, addFlags_not_mem_ensure]
  · intro hnil
    have htr := processCategory_trace_no_uids srv category emails hnil
    refine ⟨fun uids flags hmem => ?_, fun uids dest hmem => ?_,
        fun uids flags hmem => ?_, fun hmem => ?_⟩ <;>
      rcases htr with h | h | h <;> rw [h] at hmem <;>
      simp_all [List.mem_append, setFlags_not_mem_ensure,
        copy_not_mem_ensure, addFlags_not_mem_ensure,
        expunge_not_mem_ensure]

/-- Witness for C4 (amended): of two messages, only the one with a UID
reaches the seen-flag step; a batch with no UIDs issues no expunge. -/
theorem uid_filter_before_message_steps_witness :
    [4] = validUids [emailWithUid "1" 4, ⟨"2", "s", "b", none, none⟩] ∧
    Cmd.expunge ∉
      (processCategory (allOkServer ["INBOX", "X"]) "X"
          [⟨"2", "s", "b", none, none⟩]).1 :=
  ⟨(uid_filter_before_message_steps (allOkServer ["INBOX", "X"]) "X"
        [emailWithUid "1" 4, ⟨"2", "s", "b", none, none⟩]).1
      [4] seenFlags (by decide),
    ((uid_filter_before_message_steps (allOkServer ["INBOX", "X"]) "X"
          [⟨"2", "s", "b", none, none⟩]).2.2.2.1 (by decide)).2.2.2⟩

end EmailWorkflow
